import Mathlib

/-!
Verification of the CrimeTrend incident pipeline.

This file gives a shallow embedding, in Lean, of the parts of the repository
that the checked claims concern:

* the record normaliser, severity classifier, confidence scorer and change
  signature of `IncidentService` (src/unnamed/part_000, the variant with the
  time-field fallback; src/server/incident-service.js is the older variant of
  the same functions);
* the `poll` cycle of `IncidentService`, including the time-field fallback
  walk, the rebuilding of the incident and signature maps, and change
  detection;
* the polling scheduler set up by `IncidentService.start`;
* the request-coalescing cache `BroadcastifyManager._getCachedOrFetch`
  (src/server/broadcastify/manager.js) together with the pluggable cache
  backend (src/unnamed/part_002).

Modelling conventions, stated once here and referenced from the definitions:

* JavaScript string-or-absent fields are modelled as `Option String`; the
  JavaScript truthiness test on such a field is `jsTruthy` (absent and the
  empty string are falsy), and `a || b` is `jsOr a b`.
* `parseFloat` results are modelled by `DecFloat` (a decimal mantissa and a
  decimal exponent, value `num * 10 ^ exp`); `none` stands for a non-finite
  parse result (`NaN` or `Infinity`), which is exactly the condition
  `!Number.isFinite(...)` tested by the source.  Binary-double rounding and
  overflow of astronomically large exponents to `Infinity` are not modelled;
  no claim depends on them.
* `Date.parse` followed by `toISOString` (`safeTimestamp`) is modelled as the
  identity on the timestamp string, and the `Date.parse` comparison used to
  sort timelines is modelled as lexicographic string comparison, which agrees
  with chronological order on the ISO-8601 timestamps this feed emits.  No
  claim depends on the order of the timeline or of the snapshot.
* JavaScript `Map`s are modelled as association lists with `mapGet`/`mapSet`;
  `mapSet` updates an existing key in place and appends a new one, exactly the
  insertion-order semantics of `Map.prototype.set`.
* Asynchronous control flow is modelled by explicit small-step machines whose
  atomic steps are the synchronous segments between `await` points of the
  source; interleavings are lists of events.
-/

deriving instance DecidableEq for Except

namespace CrimeTrend

/-! ## Generic JavaScript-semantics helpers -/

/-- Truthiness of an optional string field: JavaScript treats `undefined`,
`null` and `""` as falsy. -/
def jsTruthy : Option String → Bool
  | none => false
  | some s => !s.isEmpty

/-- The JavaScript `a || b` on optional string fields: the first operand when
it is truthy, otherwise the second. -/
def jsOr (a b : Option String) : Option String :=
  if jsTruthy a then a else b

/-- Substring test on character lists; models `String.prototype.includes`. -/
def containsSub : List Char → List Char → Bool
  | [], pat => pat.isEmpty
  | c :: t, pat => if pat.isPrefixOf (c :: t) then true else containsSub t pat

/-- Models `haystack.includes(needle)` on strings. -/
def strIncludes (s pat : String) : Bool :=
  containsSub s.toList pat.toList

def upperList (l : List Char) : List Char := l.map Char.toUpper

def lowerList (l : List Char) : List Char := l.map Char.toLower

/-- Models `.replace(/\./g, '')`. -/
def stripDots (l : List Char) : List Char := l.filter (fun c => c ≠ '.')

/-- Models `.replace(/\s+/g, ' ')`: every maximal whitespace run becomes a
single space. -/
def collapseRuns : List Char → List Char
  | [] => []
  | c :: t =>
    if c.isWhitespace ∧ (t.head?.elim false Char.isWhitespace) then collapseRuns t
    else (if c.isWhitespace then ' ' else c) :: collapseRuns t

/-- Models `String.prototype.trim`. -/
def trimList (l : List Char) : List Char :=
  ((l.dropWhile Char.isWhitespace).reverse.dropWhile Char.isWhitespace).reverse

/-- Lexicographic comparison of character lists by code point. -/
def listCharLe : List Char → List Char → Bool
  | [], _ => true
  | _ :: _, [] => false
  | a :: as_, b :: bs => if a = b then listCharLe as_ bs else decide (a < b)

/-- Lexicographic string comparison; models the chronological comparison of
ISO-8601 timestamp strings performed via `Date.parse` in the source. -/
def strLeB (a b : String) : Bool := listCharLe a.toList b.toList

def insertIntoSorted (le : α → α → Bool) (x : α) : List α → List α
  | [] => [x]
  | y :: ys => if le x y then x :: y :: ys else y :: insertIntoSorted le x ys

/-- Stable insertion sort; models `Array.prototype.sort` with a comparator
(V8's sort is stable). -/
def insertionSortBy (le : α → α → Bool) : List α → List α
  | [] => []
  | x :: xs => insertIntoSorted le x (insertionSortBy le xs)

/-- First defined element of a list of options; models a `for` loop that
returns the first successful candidate. -/
def firstSome : List (Option String) → Option String
  | [] => none
  | some c :: _ => some c
  | none :: t => firstSome t

/-! ## JavaScript `Map` as an association list -/

/-- Models `Map.prototype.get`. -/
def mapGet (m : List (String × α)) (k : String) : Option α :=
  match m with
  | [] => none
  | (k', v) :: rest => if k' = k then some v else mapGet rest k

/-- Models `Map.prototype.set`: update an existing key in place (keeping insertion
order), otherwise append. -/
def mapSet (m : List (String × α)) (k : String) (v : α) : List (String × α) :=
  match m with
  | [] => [(k, v)]
  | (k', v') :: rest => if k' = k then (k, v) :: rest else (k', v') :: mapSet rest k v

/-! ## Decimal floats: the model of `parseFloat` results

`DecFloat` represents the finite double `num * 10 ^ exp`.  `parseFloatJs`
returns `none` exactly when the JavaScript `parseFloat` would produce a
non-finite value (`NaN` for an unparseable string, `Infinity` for a literal
"Infinity"), which is the condition `!Number.isFinite(...)` checked by
`normaliseRecord`. -/

structure DecFloat where
  num : Int
  exp : Int
deriving DecidableEq, Repr, Inhabited

def digitsToNat (ds : List Char) : Nat :=
  ds.foldl (fun a c => a * 10 + (c.toNat - 48)) 0

/-- Model of `parseFloat`: skip leading whitespace, optional sign, either the
literal `Infinity` (non-finite, hence `none`) or decimal digits with optional
fraction and exponent; no digits at all is `NaN`, hence `none`.  Trailing
garbage is ignored, as in JavaScript. -/
def parseFloatJs (s : String) : Option DecFloat :=
  let cs0 := s.toList.dropWhile Char.isWhitespace
  let neg := cs0.head?.elim false (fun c => c = '-')
  let cs := if cs0.head?.elim false (fun c => c = '-' ∨ c = '+') then cs0.tail else cs0
  if "Infinity".toList.isPrefixOf cs then none
  else
    let intDs := cs.takeWhile Char.isDigit
    let cs1 := cs.drop intDs.length
    let fracDs := if cs1.head?.elim false (fun c => c = '.') then cs1.tail.takeWhile Char.isDigit else []
    let cs2 := if cs1.head?.elim false (fun c => c = '.') then (cs1.tail.dropWhile Char.isDigit) else cs1
    if intDs.isEmpty ∧ fracDs.isEmpty then none
    else
      let mant : Nat := digitsToNat (intDs ++ fracDs)
      let exp0 : Int := -(fracDs.length : Int)
      let exp : Int :=
        if cs2.head?.elim false (fun c => c = 'e' ∨ c = 'E') then
          let t := cs2.tail
          let eneg := t.head?.elim false (fun c => c = '-')
          let t2 := if t.head?.elim false (fun c => c = '-' ∨ c = '+') then t.tail else t
          let eds := t2.takeWhile Char.isDigit
          if eds.isEmpty then exp0
          else exp0 + (if eneg then -(digitsToNat eds : Int) else (digitsToNat eds : Int))
        else exp0
      some ⟨if neg then -(mant : Int) else (mant : Int), exp⟩

/-! ## Region (state code) resolution

Faithful translation of `normaliseStateValue` / `resolveState` from
src/unnamed/part_000.  The recursive call of `normaliseStateValue` on the
segments of a composite value is unrolled to `normaliseStateValueCore`: a
segment produced by splitting on the separator set contains no separator (and
is already upper-case, dot-free and single-spaced), so on it the source
function performs exactly the non-splitting checks. -/

def DEFAULT_FALLBACK_STATE : String := "IA"

def STATE_NAME_TO_CODE : List (String × String) := [
  ("ALABAMA", "AL"), ("ALASKA", "AK"), ("ARIZONA", "AZ"), ("ARKANSAS", "AR"),
  ("CALIFORNIA", "CA"), ("COLORADO", "CO"), ("CONNECTICUT", "CT"), ("DELAWARE", "DE"),
  ("FLORIDA", "FL"), ("GEORGIA", "GA"), ("HAWAII", "HI"), ("IDAHO", "ID"),
  ("ILLINOIS", "IL"), ("INDIANA", "IN"), ("IOWA", "IA"), ("KANSAS", "KS"),
  ("KENTUCKY", "KY"), ("LOUISIANA", "LA"), ("MAINE", "ME"), ("MARYLAND", "MD"),
  ("MASSACHUSETTS", "MA"), ("MICHIGAN", "MI"), ("MINNESOTA", "MN"), ("MISSISSIPPI", "MS"),
  ("MISSOURI", "MO"), ("MONTANA", "MT"), ("NEBRASKA", "NE"), ("NEVADA", "NV"),
  ("NEW HAMPSHIRE", "NH"), ("NEW JERSEY", "NJ"), ("NEW MEXICO", "NM"), ("NEW YORK", "NY"),
  ("NORTH CAROLINA", "NC"), ("NORTH DAKOTA", "ND"), ("OHIO", "OH"), ("OKLAHOMA", "OK"),
  ("OREGON", "OR"), ("PENNSYLVANIA", "PA"), ("RHODE ISLAND", "RI"), ("SOUTH CAROLINA", "SC"),
  ("SOUTH DAKOTA", "SD"), ("TENNESSEE", "TN"), ("TEXAS", "TX"), ("UTAH", "UT"),
  ("VERMONT", "VT"), ("VIRGINIA", "VA"), ("WASHINGTON", "WA"), ("WEST VIRGINIA", "WV"),
  ("WISCONSIN", "WI"), ("WYOMING", "WY"),
  ("DISTRICT OF COLUMBIA", "DC"), ("WASHINGTON DC", "DC"), ("WASHINGTON D C", "DC"),
  ("WASHINGTON D.C", "DC"), ("WASHINGTON, D.C", "DC"), ("WASHINGTON, D.C.", "DC"),
  ("WASHINGTON, DC", "DC"), ("WASHINGTON D.C.", "DC"), ("D.C", "DC"), ("D.C.", "DC"),
  ("PUERTO RICO", "PR"), ("NORTHERN MARIANA ISLANDS", "MP"), ("AMERICAN SAMOA", "AS"),
  ("GUAM", "GU"), ("UNITED STATES VIRGIN ISLANDS", "VI"), ("US VIRGIN ISLANDS", "VI"),
  ("VIRGIN ISLANDS", "VI")]

/-- The set of valid two-letter codes (`STATE_CODE_SET` in the source: the
values of the table together with the territory codes, all of which already
occur among the values). -/
def STATE_CODE_SET : List String :=
  STATE_NAME_TO_CODE.map (fun p => p.2)

/-- The separator class `[\/,;|-]`. -/
def isStateSeparator (c : Char) : Bool :=
  c = '/' || c = ',' || c = ';' || c = '|' || c = '-'

/-- Models `String.prototype.split` on the separator class. -/
def splitSeps : List Char → List (List Char)
  | [] => [[]]
  | c :: t =>
    if isStateSeparator c then [] :: splitSeps t
    else
      match splitSeps t with
      | [] => [[c]]
      | h :: r => (c :: h) :: r

/-- Strips the decorators `^STATE OF\s+` and `\s+STATE$` from an already
whitespace-collapsed string. -/
def stripDecorators (collapsed : List Char) : List Char :=
  let s1 := if "STATE OF ".toList.isPrefixOf collapsed then collapsed.drop 9 else collapsed
  if " STATE".toList.isSuffixOf s1 then s1.take (s1.length - 6) else s1

def lookupState (key : String) : Option String :=
  STATE_NAME_TO_CODE.lookup key

/-- The non-splitting part of `normaliseStateValue`: trim, upper-case, strip
dots, collapse whitespace; accept a known two-letter code directly or after
decorator stripping; otherwise consult the name table. -/
def normaliseStateValueCore (value : String) : Option String :=
  let trimmed := (trimList value.toList).asString
  if trimmed.isEmpty then none
  else
    let collapsed := (trimList (collapseRuns (stripDots (upperList trimmed.toList)))).asString
    if collapsed.length = 2 ∧ STATE_CODE_SET.contains collapsed then some collapsed
    else
      let withoutDecorators := (stripDecorators collapsed.toList).asString
      if withoutDecorators.length = 2 ∧ STATE_CODE_SET.contains withoutDecorators then
        some withoutDecorators
      else
        match lookupState withoutDecorators with
        | some c => some c
        | none =>
          match lookupState collapsed with
          | some c => some c
          | none => lookupState ((collapseRuns withoutDecorators.toList).asString)

/-- Full `normaliseStateValue` on a present string: the core checks, then the
composite-value branch that splits on separators and tries each segment. -/
def normaliseStateValueFull (value : String) : Option String :=
  match normaliseStateValueCore value with
  | some c => some c
  | none =>
    let trimmed := trimList value.toList
    if trimmed.isEmpty then none
    else
      let collapsed := trimList (collapseRuns (stripDots (upperList trimmed)))
      let withoutDecorators := stripDecorators collapsed
      if withoutDecorators.any isStateSeparator then
        let parts := ((splitSeps withoutDecorators).map trimList).filter (fun p => !p.isEmpty)
        if parts.length > 1 then
          firstSome (parts.map (fun p => normaliseStateValueCore p.asString))
        else none
      else none

/-- The full `normaliseStateValue` on an optional value: `if (!value) return null`. -/
def normaliseStateValue (value : Option String) : Option String :=
  if jsTruthy value = false then none
  else normaliseStateValueFull (value.getD "")

/-! ## Raw records and canonical incidents -/

/-- A raw upstream record, with exactly the fields the source reads.  The
nested `incident_location` object is flattened: `incident_location_latitude`
is `record.incident_location.latitude` (absent when either level is absent),
and similarly for the other nested fields. -/
structure RawRecord where
  cad_event_number : Option String := none
  general_offense_number : Option String := none
  incident_location_latitude : Option String := none
  incident_location_longitude : Option String := none
  incident_location_state : Option String := none
  incident_location_state_code : Option String := none
  incident_location_state_abbr : Option String := none
  incident_location_state_name : Option String := none
  incident_location_address : Option String := none
  latitude : Option String := none
  longitude : Option String := none
  lat : Option String := none
  long : Option String := none
  state : Option String := none
  state_code : Option String := none
  state_abbr : Option String := none
  state_name : Option String := none
  jurisdiction_state : Option String := none
  geo_state : Option String := none
  us_state : Option String := none
  jurisdiction : Option String := none
  hundred_block_location : Option String := none
  event_received_date_time : Option String := none
  event_dispatched_date_time : Option String := none
  event_arrival_date_time : Option String := none
  event_clearance_date : Option String := none
  datetime : Option String := none
  event_clearance_description : Option String := none
  event_clearance_subgroup : Option String := none
  event_clearance_disposition : Option String := none
  event_clearance_group : Option String := none
  event_clearance_code : Option String := none
  initial_type_description : Option String := none
  district_sector : Option String := none
  zone_beat : Option String := none
deriving DecidableEq, Repr, Inhabited

/-- Translation of `resolveState`: try the ordered candidate fields, then the configured
fallback, then the hard default `'IA'`. -/
def resolveState (record : RawRecord) (fallbackState : Option String) : Option String :=
  let candidates : List (Option String) := [
    record.incident_location_state, record.incident_location_state_code,
    record.incident_location_state_abbr, record.incident_location_state_name,
    record.state, record.state_code, record.state_abbr, record.state_name,
    record.jurisdiction_state, record.geo_state, record.us_state, record.jurisdiction,
    record.incident_location_address, record.hundred_block_location]
  match firstSome (candidates.map normaliseStateValue) with
  | some c => some c
  | none => normaliseStateValue (jsOr fallbackState (some DEFAULT_FALLBACK_STATE))

/-- The severity keyword table (`SEVERITY_MAPPINGS`): each entry is the
alternatives of one case-insensitive regex together with its severity. -/
def SEVERITY_MAPPINGS : List (List String × String) := [
  (["ASSAULT", "SHOOT", "WEAPON", "FIREARM", "ROBBERY", "THREAT", "HOMICIDE", "STABBING"], "violent"),
  (["BURGLARY", "THEFT", "PROWL", "PROPERTY", "TRESPASS", "VANDAL"], "property"),
  (["MEDICAL", "AID", "EMS", "INJURY", "OVERDOSE", "RESCUE"], "medical")]

/-- Case-insensitive test of an alternation of literal keywords against a
target, modelling `/KW1|KW2|.../i.test(target)`. -/
def regexAltTestCI (target : String) (alts : List String) : Bool :=
  alts.any (fun kw => containsSub (upperList target.toList) kw.toList)

/-- Translation of `determineSeverity`: first matching pattern group wins, default `other`. -/
def determineSeverity (type subgroup : Option String) : String :=
  let target := (type.getD "") ++ " " ++ (subgroup.getD "")
  match SEVERITY_MAPPINGS.find? (fun m => regexAltTestCI target m.1) with
  | some m => m.2
  | none => "other"

def AUDIO_FEED_default : String := "https://broadcastify.cdnstream1.com/35248"
def AUDIO_FEED_north : String := "https://broadcastify.cdnstream1.com/35568"
def AUDIO_FEED_south : String := "https://broadcastify.cdnstream1.com/35569"

/-- Translation of `pickAudioFeed`: choose by the first character of the lower-cased sector. -/
def pickAudioFeed (sector : String) : String :=
  match lowerList sector.toList with
  | c :: _ => if c = 'n' then AUDIO_FEED_north else if c = 's' then AUDIO_FEED_south else AUDIO_FEED_default
  | [] => AUDIO_FEED_default

structure TimelineStep where
  code : String
  label : String
  timestamp : Option String
deriving DecidableEq, Repr, Inhabited

structure UnitEntry where
  unit_id : String
  role : String
deriving DecidableEq, Repr, Inhabited

structure LocationInfo where
  latitude : DecFloat
  longitude : DecFloat
  address : String
  state : Option String
deriving DecidableEq, Repr, Inhabited

structure SourceInfo where
  name : String
  feed : Option String
  sector : Option String
deriving DecidableEq, Repr, Inhabited

structure Provenance where
  feed : String
  fetched_at : String
  lookback_minutes : Nat
  limit : Nat
deriving DecidableEq, Repr, Inhabited

/-- The canonical incident.  `updated_at`, `ingested_at`, `provenance`,
`latest_update` and `confidence_updated_at` are `none` as produced by
`normaliseRecord` and are filled in by `poll`. -/
structure Incident where
  incident_id : String
  call_type : String
  summary : String
  location : LocationInfo
  time_received : Option String
  status : String
  severity : String
  subgroup : String
  units : List UnitEntry
  timeline : List TimelineStep
  audio_stream_url : String
  updated_at : Option String
  confidence : Nat
  state : Option String
  source : SourceInfo
  ingested_at : Option String
  provenance : Option Provenance
  latest_update : Option TimelineStep
  confidence_updated_at : Option String
deriving DecidableEq, Repr, Inhabited

def SOURCE_NAME : String := "Seattle Police Department CAD (Socrata)"

/-- Translation of `buildTimeline`: one entry per present lifecycle field, sorted ascending
by timestamp (`Date.parse` order, modelled lexicographically; see header). -/
def buildTimeline (record : RawRecord) : List TimelineStep :=
  let timeline :=
    (if jsTruthy record.event_received_date_time then
      [⟨"received", "Call received", record.event_received_date_time⟩] else []) ++
    (if jsTruthy record.event_dispatched_date_time then
      [⟨"dispatched", "Units dispatched", record.event_dispatched_date_time⟩] else []) ++
    (if jsTruthy record.event_arrival_date_time then
      [⟨"arrival", "First unit arrived", record.event_arrival_date_time⟩] else []) ++
    (if jsTruthy record.event_clearance_date then
      [⟨"cleared", "Incident cleared", record.event_clearance_date⟩] else [])
  insertionSortBy (fun a b => strLeB (a.timestamp.getD "") (b.timestamp.getD "")) timeline

/-- Translation of `extractUnits`. -/
def extractUnits (record : RawRecord) : List UnitEntry :=
  (if jsTruthy record.district_sector then
    [⟨record.district_sector.getD "", "Sector"⟩] else []) ++
  (if jsTruthy record.zone_beat then
    [⟨record.zone_beat.getD "", "Beat"⟩] else []) ++
  (if jsTruthy record.event_clearance_group then
    [⟨record.event_clearance_group.getD "", "Response group"⟩] else [])

/-- Translation of `calculateConfidence`: base 55, fixed bonuses, clamped into `[40, 95]`.
`Math.round` is the identity here because the score is always integral. -/
def calculateConfidence (record : RawRecord) (severity : String) (timeline : List TimelineStep) : Nat :=
  let score := 55
  let score :=
    if severity = "violent" then score + 12
    else if severity = "medical" then score + 8
    else if severity = "property" then score + 6
    else score
  let score :=
    if timeline.length > 0 then
      let score := score + 6
      let score := if timeline.length ≥ 2 then score + 4 else score
      if timeline.length ≥ 3 then score + 3 else score
    else score
  let score :=
    if jsTruthy record.event_clearance_disposition
        && !(record.event_clearance_disposition == some "Pending") then score + 8
    else score
  let score := if jsTruthy record.event_clearance_group then score + 4 else score
  let score := if jsTruthy record.event_clearance_code then score + 3 else score
  max 40 (min 95 score)

/-- The resolved latitude source string of a record: the `||` chain
`location.latitude || record.latitude || record.lat || '0'`. -/
def resolvedLatString (record : RawRecord) : String :=
  (jsOr record.incident_location_latitude (jsOr record.latitude (jsOr record.lat (some "0")))).getD "0"

/-- The resolved longitude source string of a record. -/
def resolvedLonString (record : RawRecord) : String :=
  (jsOr record.incident_location_longitude (jsOr record.longitude (jsOr record.long (some "0")))).getD "0"

/-- Translation of `normaliseRecord`: reject on a missing identifier or a non-finite
coordinate, otherwise build the canonical incident. -/
def normaliseRecord (record : RawRecord) (fallbackState : Option String) : Option Incident :=
  let incidentId := jsOr record.cad_event_number record.general_offense_number
  if jsTruthy incidentId = false then none
  else
    match parseFloatJs (resolvedLatString record), parseFloatJs (resolvedLonString record) with
    | some latV, some lonV =>
      let stateCode := resolveState record fallbackState
      let severity := determineSeverity record.event_clearance_description record.event_clearance_subgroup
      let timeline := buildTimeline record
      let confidence := calculateConfidence record severity timeline
      some {
        incident_id := incidentId.getD ""
        call_type := (jsOr (jsOr record.initial_type_description record.event_clearance_description)
          (some "Unspecified")).getD "Unspecified"
        summary := (jsOr (jsOr record.event_clearance_description record.initial_type_description)
          (some "No summary available")).getD "No summary available"
        location := {
          latitude := latV
          longitude := lonV
          address := (jsOr (jsOr record.hundred_block_location record.district_sector)
            (some "Unknown address")).getD "Unknown address"
          state := stateCode }
        time_received := jsOr record.event_received_date_time (jsOr record.event_clearance_date record.datetime)
        status := (jsOr record.event_clearance_disposition (some "Pending")).getD "Pending"
        severity := severity
        subgroup := (jsOr record.event_clearance_subgroup (some "Uncategorised")).getD "Uncategorised"
        units := extractUnits record
        timeline := timeline
        audio_stream_url := pickAudioFeed (record.district_sector.getD "")
        updated_at := none
        confidence := confidence
        state := stateCode
        source := { name := SOURCE_NAME, feed := none, sector := jsOr record.district_sector none }
        ingested_at := none
        provenance := none
        latest_update := none
        confidence_updated_at := none }
    | _, _ => none

/-- Translation of `safeTimestamp`: the `Date.parse` round trip to an ISO string is modelled
as the identity on the timestamp (see the header notes); the source falls back
to `value || null` for unparseable input, which the identity also covers. -/
def safeTimestamp (value : Option String) : Option String := value

/-- Translation of `buildIncidentSignature`: the concatenation of the observable fields. -/
def buildIncidentSignature (incident : Incident) : String :=
  let timelineFingerprint := String.intercalate "|"
    (incident.timeline.map (fun step => step.code ++ ":" ++ ((safeTimestamp step.timestamp).getD "")))
  let unitsFingerprint := String.intercalate "|"
    (incident.units.map (fun u => u.role ++ ":" ++ u.unit_id))
  String.intercalate "||" [incident.status, incident.summary, incident.severity,
    incident.subgroup, incident.location.state.getD "", timelineFingerprint,
    unitsFingerprint, toString incident.confidence]

/-! ## Poller: upstream responses, error classification, time-field fallback

`fetchIncidents` performs one HTTP fetch.  The environment is a function from
the candidate time field to the upstream response of the query issued with
that field (within one cycle the other query inputs — endpoint, `$limit`,
`since` — are fixed, so the field is the only varying input).  `JSON.parse`
of the response body is modelled by the `json` field of the response: a JSON
array of records, a structured error object, or unparseable text. -/

def PRIMARY_TIME_FIELDS : List String := [
  "event_received_date_time",
  "event_dispatched_date_time",
  "event_arrival_date_time",
  "event_clearance_date",
  "datetime"]

/-- The structured Socrata error payload, as read by the error classifiers:
`errorCode`, `data.column`, `data.position.line` and `message`. -/
structure ErrorPayload where
  errorCode : Option String
  dataColumn : Option String
  positionLine : String
  message : String
deriving DecidableEq, Repr, Inhabited

/-- Model of `JSON.parse` applied to a response body. -/
inductive BodyJson where
  | arrayBody (records : List RawRecord)
  | errorObj (e : ErrorPayload)
  | notJson
deriving DecidableEq, Repr, Inhabited

structure HttpResponse where
  status : Nat
  raw : String
  json : BodyJson
deriving Inhabited

/-- Models `response.ok`: status in the 2xx range. -/
def responseOk (r : HttpResponse) : Bool :=
  decide (200 ≤ r.status) && decide (r.status < 300)

/-- Translation of `detectMissingColumn`: prefer the structured payload, fall back to
substring matching when the body is not a matching JSON error object. -/
def detectMissingColumn (r : HttpResponse) (columnName : String) : Bool :=
  if r.raw.isEmpty || columnName.isEmpty then false
  else
    let fallback := strIncludes r.raw "No such column" && strIncludes r.raw columnName
    match r.json with
    | .errorObj e =>
      if e.errorCode == some "query.soql.no-such-column" then
        e.dataColumn == some columnName
      else fallback
    | _ => fallback

/-- Translation of `detectIncompatibleColumn`: structured type-mismatch payload naming the
column in backquotes, with a substring fallback. -/
def detectIncompatibleColumn (r : HttpResponse) (columnName : String) : Bool :=
  if r.raw.isEmpty || columnName.isEmpty then false
  else
    let fallback := strIncludes r.raw "query.soql.type-mismatch" &&
      strIncludes r.raw columnName && strIncludes r.raw "Type mismatch"
    match r.json with
    | .errorObj e =>
      if e.errorCode == some "query.soql.type-mismatch" then
        let serializedColumn := "`" ++ columnName ++ "`"
        if strIncludes e.positionLine serializedColumn then true
        else if strIncludes e.message serializedColumn then true
        else fallback
      else fallback
    | _ => fallback

/-- A thrown fetch error: the message and the `missingColumn` marker that
`poll` inspects. -/
structure FetchError where
  message : String
  missingColumn : Bool
deriving DecidableEq, Repr, Inhabited

/-- Translation of `fetchIncidents` for one candidate time field. -/
def fetchIncidents (env : String → HttpResponse) (primaryTimeField : String) :
    Except FetchError (List RawRecord) :=
  let r := env primaryTimeField
  if responseOk r = false then
    let missingColumn := (r.status == 400) &&
      (detectMissingColumn r primaryTimeField || detectIncompatibleColumn r primaryTimeField)
    .error ⟨"Failed to fetch incidents: " ++ toString r.status ++ " " ++ r.raw, missingColumn⟩
  else
    match r.json with
    | .arrayBody records => .ok records
    | _ => .error ⟨"Unexpected response shape from data feed", false⟩

/-- Translation of `advanceTimeField`: the next entry of the fallback list, or `none` at the
end or for an unknown field. -/
def advanceTimeField (currentField : String) : Option String :=
  match PRIMARY_TIME_FIELDS.indexOf? currentField with
  | none => none
  | some i =>
    if i = PRIMARY_TIME_FIELDS.length - 1 then none
    else PRIMARY_TIME_FIELDS.get? (i + 1)

/-- The errors `poll` can throw. -/
inductive PollErr where
  | fetchFailed (message : String) (missingColumn : Bool)
  | unsupportedField (field : String)
  | noPayload
deriving DecidableEq, Repr, Inhabited

/-- The `while (primaryTimeField)` fallback walk of `poll`.  On success it
returns the payload together with the field that succeeded (the field that
`poll` assigns to `this.primaryTimeField` at that moment).  The `fuel`
argument only bounds the recursion; the walk needs at most one step per
entry of the fallback list, and `poll` supplies enough fuel, so the `fuel = 0`
case (mapped to the source's unreachable `if (!payload) throw`) is never hit. -/
def pollFetchLoop (env : String → HttpResponse) :
    Nat → String → List String → Except PollErr (List RawRecord × String)
  | 0, _, _ => .error .noPayload
  | fuel + 1, primaryTimeField, attempted =>
    match fetchIncidents env primaryTimeField with
    | .ok payload => .ok (payload, primaryTimeField)
    | .error e =>
      if e.missingColumn then
        let attempted' := primaryTimeField :: attempted
        match advanceTimeField primaryTimeField with
        | none => .error (.unsupportedField primaryTimeField)
        | some nextField =>
          if attempted'.contains nextField then .error (.unsupportedField primaryTimeField)
          else pollFetchLoop env fuel nextField attempted'
      else .error (.fetchFailed e.message e.missingColumn)

/-! ## Incident store, change detection and the poll cycle -/

structure ServiceOptions where
  endpoint : String
  limit : Nat
  lookbackMinutes : Nat
  defaultState : Option String
deriving DecidableEq, Repr, Inhabited

structure ServiceState where
  incidents : List (String × Incident)
  signatures : List (String × String)
  primaryTimeField : String
deriving DecidableEq, Repr, Inhabited

/-- The body of the `for (const record of payload)` loop of `poll` for one
record, as a pure function of the previous cycle's maps: the contributed
incident, its signature, and whether this record marks the cycle changed
(`none` when `normaliseRecord` rejects the record). -/
def buildCycleIncident (opts : ServiceOptions) (fetchedAt : String)
    (prevIncidents : List (String × Incident)) (prevSignatures : List (String × String))
    (record : RawRecord) : Option (Incident × String × Bool) :=
  match normaliseRecord record opts.defaultState with
  | none => none
  | some n0 =>
    let n1 := { n0 with source := { n0.source with feed := some opts.endpoint } }
    let previous := mapGet prevIncidents n1.incident_id
    let previousSignature := mapGet prevSignatures n1.incident_id
    let n2 := { n1 with
      ingested_at := jsOr (previous.bind (fun p => p.ingested_at)) (some fetchedAt)
      provenance := some ⟨opts.endpoint, fetchedAt, opts.lookbackMinutes, opts.limit⟩ }
    let latest : TimelineStep :=
      match n2.timeline.getLast? with
      | some step => step
      | none => ⟨"received", "Call received", n2.time_received⟩
    let n3 := { n2 with
      latest_update := some latest
      updated_at := jsOr latest.timestamp n2.time_received }
    let signature := buildIncidentSignature n3
    -- In the source's else branch the guarded `changed = true` fires exactly
    -- when `!previous || previousSignature !== signature`, which is the
    -- negation of the branch condition and therefore always holds there.
    match previous with
    | some prev =>
      if previousSignature = some signature then
        some ({ n3 with
          updated_at := prev.updated_at
          confidence_updated_at := jsOr prev.confidence_updated_at (some fetchedAt)
          latest_update := prev.latest_update }, signature, false)
      else
        some ({ n3 with confidence_updated_at := some fetchedAt }, signature, true)
    | none =>
      some ({ n3 with confidence_updated_at := some fetchedAt }, signature, true)

/-- The maps and change flag accumulated by the record loop. -/
structure CycleMaps where
  incidents : List (String × Incident)
  signatures : List (String × String)
  changed : Bool
deriving DecidableEq, Repr, Inhabited

/-- The record loop of `poll`: fold `buildCycleIncident` over the payload,
writing both fresh maps under the incident id (last record with a given id
wins, as with `Map.prototype.set`). -/
def processRecords (opts : ServiceOptions) (fetchedAt : String)
    (prevIncidents : List (String × Incident)) (prevSignatures : List (String × String)) :
    List RawRecord → CycleMaps → CycleMaps
  | [], acc => acc
  | record :: rest, acc =>
    match buildCycleIncident opts fetchedAt prevIncidents prevSignatures record with
    | none => processRecords opts fetchedAt prevIncidents prevSignatures rest acc
    | some (inc, sig, chg) =>
      processRecords opts fetchedAt prevIncidents prevSignatures rest
        { incidents := mapSet acc.incidents inc.incident_id inc
          signatures := mapSet acc.signatures inc.incident_id sig
          changed := acc.changed || chg }

/-- Translation of `getSnapshot`: the stored incidents sorted descending by `time_received`
(comparison modelled lexicographically; see header). -/
def getSnapshot (st : ServiceState) : List Incident :=
  insertionSortBy (fun a b => strLeB (b.time_received.getD "") (a.time_received.getD ""))
    (st.incidents.map (fun p => p.2))

/-- The outcome of a successful poll cycle: the change flag, and the snapshot
carried by the `update` event when one is emitted. -/
structure PollResult where
  changed : Bool
  emitted : Option (List Incident)
deriving DecidableEq, Repr, Inhabited

def POLL_FUEL : Nat := PRIMARY_TIME_FIELDS.length + 1

/-- Translation of `IncidentService.poll` as a state transformer.  `fetchedAt` is the ISO
string `new Date().toISOString()` taken during the cycle (always non-empty in
the source).  The state is threaded exactly as the source mutates `this`:
`primaryTimeField` is assigned only when a fetch succeeds, and the two maps
are replaced together after the record loop; every `throw` happens before
any map is touched, so a failing cycle returns the incoming state. -/
def poll (env : String → HttpResponse) (opts : ServiceOptions) (fetchedAt : String)
    (st : ServiceState) : Except PollErr PollResult × ServiceState :=
  match pollFetchLoop env POLL_FUEL st.primaryTimeField [] with
  | .error e => (.error e, st)
  | .ok (payload, fld) =>
    let maps := processRecords opts fetchedAt st.incidents st.signatures payload ⟨[], [], false⟩
    let changed := maps.changed || decide (st.incidents.length ≠ maps.incidents.length)
    let st' : ServiceState :=
      { incidents := maps.incidents, signatures := maps.signatures, primaryTimeField := fld }
    (.ok { changed := changed, emitted := if changed then some (getSnapshot st') else none }, st')

/-! ## The polling scheduler (`IncidentService.start`)

`start()` runs `this.poll().catch(log)` once, then installs
`setInterval(() => this.poll().catch(log), refreshIntervalMs)`.  The interval
callback invokes `poll` unconditionally — the service keeps no
poll-in-progress flag, and `setInterval` fires on wall-clock time regardless
of whether the previous cycle's asynchronous work has completed.  The model
counts poll cycles that have started and not yet settled: a `timerFire` event
is the interval callback (it starts a cycle whenever the interval is
installed), and a `pollSettle` event is the completion (fulfilment or
rejection) of one in-flight cycle's promise. -/

structure SchedState where
  intervalSet : Bool
  pollsInFlight : Nat
deriving DecidableEq, Repr, Inhabited

inductive SchedEvent where
  | timerFire
  | pollSettle
deriving DecidableEq, Repr, Inhabited

/-- One scheduler event.  The interval callback `() => this.poll().catch(...)`
contains no guard, so `timerFire` always starts a new cycle. -/
def schedStep (s : SchedState) : SchedEvent → SchedState
  | .timerFire => if s.intervalSet then { s with pollsInFlight := s.pollsInFlight + 1 } else s
  | .pollSettle => { s with pollsInFlight := s.pollsInFlight - 1 }

/-- The state right after `start()` on a stopped service: the initial
`this.poll()` is in flight and the interval is installed. -/
def startService : SchedState := { intervalSet := true, pollsInFlight := 1 }

def schedRun (events : List SchedEvent) : SchedState :=
  events.foldl schedStep startService

/-! ## The request-coalescing cache (`BroadcastifyManager._getCachedOrFetch`)

Two models are used, each capturing one aspect of the same source function.

The first is a small-step machine for two concurrent callers of
`_getCachedOrFetch` with the same key and `refresh = false`, over the
in-memory backend (whose `get`/`set` always settle successfully; part_002).
The atomic steps are the synchronous segments between `await` points of the
source:

* `readStep t` — caller `t` resumes from `await cache.get(cacheKey)`, having
  read the backend entry as of that moment;
* `proceedStep t` — the synchronous segment after the read: a cache hit
  returns the parsed entry; otherwise the caller checks `this.pending`; on a
  hit it returns the shared in-flight promise; on a miss it invokes
  `fetchFunc()` (the async IIFE runs synchronously up to its first `await`),
  registers the promise in `this.pending`, and awaits it — all in one tick;
* `settleStep pid out setOk` — the fetch behind promise `pid` settles with
  `out`; on success the IIFE performs `cache.set` (best effort: `setOk`
  says whether the backend stored it) and the promise then settles;
* `resumeStep t` — caller `t` resumes from its settled promise: the owner
  runs its `finally { this.pending.delete(cacheKey) }` and returns or
  rethrows; an attached waiter just returns or rethrows.

Ghost fields (`aStarted` …) record which caller invoked the fetch or attached
to the shared promise; they do not influence the dynamics. -/

inductive FetchOutcome where
  | success (v : Nat)
  | failure (e : Nat)
deriving DecidableEq, Repr, Inhabited

/-- How one call to `_getCachedOrFetch` returned. -/
inductive CallResult where
  | fromCache (v : Nat)
  | ok (v : Nat)
  | err (e : Nat)
deriving DecidableEq, Repr, Inhabited

def outcomeResult : FetchOutcome → CallResult
  | .success v => .ok v
  | .failure e => .err e

inductive TaskPhase where
  | beforeRead
  | checkPending (cached : Option Nat)
  | awaitOwn (pid : Nat)
  | awaitShared (pid : Nat)
  | finished (r : CallResult)
deriving DecidableEq, Repr, Inhabited

structure CoState where
  cacheVal : Option Nat
  pending : Option Nat
  fetchCount : Nat
  nextPid : Nat
  promises : List (Nat × Option FetchOutcome)
  taskA : TaskPhase
  taskB : TaskPhase
  aStarted : Bool
  bStarted : Bool
  aAttached : Bool
  bAttached : Bool
deriving DecidableEq, Repr, Inhabited

def CoState.task (s : CoState) (t : Bool) : TaskPhase :=
  if t then s.taskA else s.taskB

def CoState.setTask (s : CoState) (t : Bool) (ph : TaskPhase) : CoState :=
  if t then { s with taskA := ph } else { s with taskB := ph }

/-- Lookup of a started fetch: `some none` means started and still pending,
`some (some out)` means settled with `out`, `none` means no such fetch. -/
def promiseOutcome (ps : List (Nat × Option FetchOutcome)) (pid : Nat) :
    Option (Option FetchOutcome) :=
  match ps with
  | [] => none
  | (pid', o) :: rest => if pid' = pid then some o else promiseOutcome rest pid

def settlePromise (ps : List (Nat × Option FetchOutcome)) (pid : Nat) (out : FetchOutcome) :
    List (Nat × Option FetchOutcome) :=
  ps.map (fun p => if p.1 = pid ∧ p.2 = none then (p.1, some out) else p)

/-- Caller `t` resumes from `await cache.get(cacheKey)`. -/
def readStep (s : CoState) (t : Bool) : CoState :=
  match s.task t with
  | .beforeRead => s.setTask t (.checkPending s.cacheVal)
  | _ => s

/-- The post-read synchronous segment of caller `t` (cache hit return,
pending-map check, or fetch start). -/
def proceedStep (s : CoState) (t : Bool) : CoState :=
  match s.task t with
  | .checkPending cached =>
    match cached with
    | some v => s.setTask t (.finished (.fromCache v))
    | none =>
      match s.pending with
      | some pid =>
        let s' := s.setTask t (.awaitShared pid)
        if t then { s' with aAttached := true } else { s' with bAttached := true }
      | none =>
        let pid := s.nextPid
        let s' := { s with
          fetchCount := s.fetchCount + 1
          nextPid := s.nextPid + 1
          promises := (pid, none) :: s.promises
          pending := some pid }
        let s'' := s'.setTask t (.awaitOwn pid)
        if t then { s'' with aStarted := true } else { s'' with bStarted := true }
  | _ => s

/-- The fetch behind promise `pid` settles; on success the result is stored
in the backend when `setOk` (a failed store is only logged), then the promise
settles. -/
def settleStep (s : CoState) (pid : Nat) (out : FetchOutcome) (setOk : Bool) : CoState :=
  if promiseOutcome s.promises pid = some none then
    let s' := { s with promises := settlePromise s.promises pid out }
    match out with
    | .success v => if setOk then { s' with cacheVal := some v } else s'
    | .failure _ => s'
  else s

/-- Caller `t` resumes from its settled promise.  The owner's
`finally { this.pending.delete(cacheKey) }` runs here, on success and on
failure alike; an attached waiter has no `finally`. -/
def resumeStep (s : CoState) (t : Bool) : CoState :=
  match s.task t with
  | .awaitOwn pid =>
    match promiseOutcome s.promises pid with
    | some (some out) => { s.setTask t (.finished (outcomeResult out)) with pending := none }
    | _ => s
  | .awaitShared pid =>
    match promiseOutcome s.promises pid with
    | some (some out) => s.setTask t (.finished (outcomeResult out))
    | _ => s
  | _ => s

inductive CoEvent where
  | read (t : Bool)
  | proceed (t : Bool)
  | settle (pid : Nat) (out : FetchOutcome) (setOk : Bool)
  | resume (t : Bool)
deriving DecidableEq, Repr, Inhabited

def coStep (s : CoState) : CoEvent → CoState
  | .read t => readStep s t
  | .proceed t => proceedStep s t
  | .settle pid out setOk => settleStep s pid out setOk
  | .resume t => resumeStep s t

/-- Both callers arrive while the backend has no entry for the key and no
fetch is in flight. -/
def coInit : CoState :=
  { cacheVal := none, pending := none, fetchCount := 0, nextPid := 0, promises := []
    taskA := .beforeRead, taskB := .beforeRead
    aStarted := false, bStarted := false, aAttached := false, bAttached := false }

def coRun (events : List CoEvent) : CoState :=
  events.foldl coStep coInit

def TaskPhase.isFinished : TaskPhase → Bool
  | .finished _ => true
  | _ => false

/-! ### Single-call error-path model of `_getCachedOrFetch`

This second model follows one call with no concurrent in-flight request, over
a pluggable backend whose `get` and `set` promises may reject
(`RedisCache`; part_002).  Cached values are serialized with
`JSON.stringify` and revived with `JSON.parse`, modelled as decimal
digits of `Nat` payloads (`parseCachedNat`) — all the claim needs is that
revival can fail.  The call returns its outcome together with whether
`fetchFunc` was invoked.  The structure mirrors the source line by line:

* `await cache.get(cacheKey)` is not wrapped in any try/catch, so a rejected
  backend read propagates out of `_getCachedOrFetch` before `fetchFunc` is
  reached;
* a backend entry that fails to parse is logged and treated as a miss;
* a rejected `cache.set` after a successful fetch is logged and the call
  still returns the fetch result. -/

/-- The revival (`JSON.parse`) of a serialized cache entry in the model: the
digits of a `Nat`, anything else fails to parse. -/
def parseCachedNat (s : String) : Option Nat :=
  let cs := s.toList
  if cs ≠ [] ∧ cs.all Char.isDigit then some (digitsToNat cs) else none

def getCachedOrFetchOnce (refresh : Bool) (cacheGet : Except String (Option String))
    (fetchResult : Except String Nat) (cacheSet : Except String Unit) :
    Except String Nat × Bool :=
  let fetchBranch : Except String Nat × Bool :=
    match fetchResult with
    | .error e => (.error e, true)
    | .ok v =>
      match cacheSet with
      | .ok _ => (.ok v, true)
      | .error _ => (.ok v, true)
  if refresh = false then
    match cacheGet with
    | .error e => (.error e, false)
    | .ok (some cached) =>
      match parseCachedNat cached with
      | some v => (.ok v, false)
      | none => fetchBranch
    | .ok none => fetchBranch
  else fetchBranch

/-! ## Auxiliary definitions used by the claim statements -/

/-- The confidence computation exactly as the specification words it (§4.3),
for comparison with the source's `calculateConfidence`: a base of 55 plus
fixed bonuses, the result clamped to `[40, 95]`. -/
def confidenceReference (record : RawRecord) (severity : String)
    (timeline : List TimelineStep) : Nat :=
  let severityBonus :=
    if severity = "violent" then 12
    else if severity = "medical" then 8
    else if severity = "property" then 6
    else 0
  let timelineBonus :=
    (if timeline.length ≥ 1 then 6 else 0) +
    (if timeline.length ≥ 2 then 4 else 0) +
    (if timeline.length ≥ 3 then 3 else 0)
  let dispositionBonus :=
    if jsTruthy record.event_clearance_disposition
        && !(record.event_clearance_disposition == some "Pending") then 8
    else 0
  let groupBonus := if jsTruthy record.event_clearance_group then 4 else 0
  let codeBonus := if jsTruthy record.event_clearance_code then 3 else 0
  min 95 (max 40 (55 + severityBonus + timelineBonus + dispositionBonus + groupBonus + codeBonus))

/-- Every coordinate field the `||` chains of `normaliseRecord` inspect is
absent or empty. -/
def coordFieldsBlank (record : RawRecord) : Bool :=
  !jsTruthy record.incident_location_latitude && !jsTruthy record.latitude &&
  !jsTruthy record.lat && !jsTruthy record.incident_location_longitude &&
  !jsTruthy record.longitude && !jsTruthy record.long

/-- A caller in this phase has not yet passed the point where it would invoke
the fetch or attach to a shared promise. -/
def TaskPhase.preFetch : TaskPhase → Bool
  | .beforeRead => true
  | .checkPending _ => true
  | _ => false

/-- The bookkeeping invariant of the coalescing machine: the fetch count is
the number of callers that started a fetch, a caller that attached to a
shared promise never started its own fetch, and the ghost flags are clear
while a caller is still before its pending-map check. -/
def coInvB (s : CoState) : Bool :=
  (s.fetchCount == (cond s.aStarted 1 0) + (cond s.bStarted 1 0)) &&
  (!s.aAttached || !s.aStarted) && (!s.bAttached || !s.bStarted) &&
  (!s.taskA.preFetch || (!s.aStarted && !s.aAttached)) &&
  (!s.taskB.preFetch || (!s.bStarted && !s.bAttached))

/-! ## Concrete fixtures used by witnesses and counterexamples -/

/-- A minimal raw record: an identifier and one timeline field. -/
def wRecord : RawRecord :=
  { cad_event_number := some "E1", event_received_date_time := some "2026-01-01T00:00:00" }

/-- An upstream that answers every query with a one-record array. -/
def wEnvOk : String → HttpResponse := fun _ => ⟨200, "[...]", .arrayBody [wRecord]⟩

/-- An upstream that answers every query with an HTTP 500. -/
def wEnv500 : String → HttpResponse := fun _ => ⟨500, "boom", .notJson⟩

/-- An upstream whose 400 body names the queried column as missing, for every
candidate field. -/
def wEnv400 : String → HttpResponse := fun fld =>
  ⟨400, "No such column " ++ fld,
    .errorObj ⟨some "query.soql.no-such-column", some fld, "", ""⟩⟩

def wOpts : ServiceOptions := ⟨"https://example.test/feed", 200, 120, some "WA"⟩

def wSt0 : ServiceState := ⟨[], [], "event_received_date_time"⟩

def wSt1 : ServiceState := (poll wEnvOk wOpts "T1" wSt0).2

def wSt2 : ServiceState := (poll wEnvOk wOpts "T2" wSt1).2

def wR1 : PollResult := ((poll wEnvOk wOpts "T1" wSt0).1).toOption.getD default

def wR2 : PollResult := ((poll wEnvOk wOpts "T2" wSt1).1).toOption.getD default

def wPrev : Incident := (mapGet wSt1.incidents "E1").getD default

def wCur : Incident := (mapGet wSt2.incidents "E1").getD default

/-- The interleaving in which the second caller checks the in-flight map
while the first caller's fetch is pending: coalescing applies. -/
def coalescedTrace : List CoEvent :=
  [.read true, .proceed true, .read false, .proceed false,
   .settle 0 (.success 7) true, .resume true, .resume false]

/-- The interleaving refuting the claim as stated: both calls overlap in time
(B performs its backend read while A's fetch is in flight) and the backend
never holds an entry for the key, but A's call settles — and its in-flight
marker is removed — before B reaches its in-flight check, so B starts a
second fetch. -/
def overlapGapTrace : List CoEvent :=
  [.read true, .proceed true, .read false,
   .settle 0 (.failure 1) true, .resume true,
   .proceed false, .settle 1 (.failure 1) true, .resume false]

/-! ## Helper lemmas -/

theorem jsOr_of_truthy {a b : Option String} (h : jsTruthy a = true) : jsOr a b = a := by
  simp [jsOr, h]

theorem jsOr_of_falsy {a b : Option String} (h : jsTruthy a = false) : jsOr a b = b := by
  simp [jsOr, h]

theorem jsTruthy_jsOr_right {a b : Option String} (h : jsTruthy b = true) :
    jsTruthy (jsOr a b) = true := by
  unfold jsOr
  by_cases ha : jsTruthy a = true
  · simp [ha]
  · simp [ha, h]

theorem mapGet_mapSet (m : List (String × α)) (k k' : String) (v : α) :
    mapGet (mapSet m k v) k' = if k = k' then some v else mapGet m k' := by
  induction m with
  | nil => by_cases h : k = k' <;> simp [mapSet, mapGet, h]
  | cons p rest ih =>
    obtain ⟨pk, pv⟩ := p
    by_cases hpk : pk = k
    · subst hpk
      by_cases h : pk = k' <;> simp [mapSet, mapGet, h]
    · by_cases h : k = k'
      · subst h
        simp [mapSet, mapGet, hpk, ih]
      · by_cases hpk' : pk = k' <;> simp [mapSet, mapGet, hpk, hpk', ih, h, Ne.symm h]

set_option maxHeartbeats 3200000 in
/-- The clamp chain of `calculateConfidence`, over abstract conditions, equals
the specification's sum-of-bonuses form. -/
theorem confidenceClampEq (p1 p2 p3 : Prop) [Decidable p1] [Decidable p2] [Decidable p3]
    (n : Nat) (d g c : Bool) :
    (let score : Nat := 55
     let score := if p1 then score + 12 else if p2 then score + 8 else if p3 then score + 6 else score
     let score :=
       if n > 0 then
         let score := score + 6
         let score := if n ≥ 2 then score + 4 else score
         if n ≥ 3 then score + 3 else score
       else score
     let score := if d then score + 8 else score
     let score := if g then score + 4 else score
     let score := if c then score + 3 else score
     max 40 (min 95 score)) =
    min 95 (max 40 (55 +
      (if p1 then 12 else if p2 then 8 else if p3 then 6 else 0) +
      ((if n ≥ 1 then 6 else 0) + (if n ≥ 2 then 4 else 0) + (if n ≥ 3 then 3 else 0)) +
      (if d then 8 else 0) + (if g then 4 else 0) + (if c then 3 else 0))) := by
  have h01 : (n ≥ 1) = (n > 0) := by
    apply propext; omega
  simp only [h01]
  by_cases hp1 : p1 <;> by_cases hp2 : p2 <;> by_cases hp3 : p3 <;>
    by_cases hn1 : n > 0 <;> by_cases hn2 : n ≥ 2 <;> by_cases hn3 : n ≥ 3 <;>
    cases d <;> cases g <;> cases c <;>
    simp only [hp1, hp2, hp3, hn1, hn2, hn3, if_true, if_false, ite_true, ite_false,
      eq_self_iff_true, Bool.false_eq_true, if_neg, if_pos, Bool.true_eq_false] <;>
    omega

theorem confidenceBounds (z : Nat) : 40 ≤ max 40 (min 95 z) ∧ max 40 (min 95 z) ≤ 95 := by
  omega

/-- A successful fallback walk returns a payload obtained by a successful
fetch with the returned field. -/
theorem pollFetchLoop_ok_fetch (env : String → HttpResponse) (fuel : Nat) (field : String)
    (attempted : List String) (payload : List RawRecord) (fld : String)
    (h : pollFetchLoop env fuel field attempted = .ok (payload, fld)) :
    fetchIncidents env fld = .ok payload := by
  induction fuel generalizing field attempted with
  | zero => simp [pollFetchLoop] at h
  | succ n ih =>
    unfold pollFetchLoop at h
    cases hf : fetchIncidents env field with
    | ok p =>
      rw [hf] at h
      simp at h
      obtain ⟨h1, h2⟩ := h
      subst h1
      subst h2
      exact hf
    | error e =>
      rw [hf] at h
      by_cases hm : e.missingColumn = true
      · simp only [hm, if_true, ite_true] at h
        cases hadv : advanceTimeField field with
        | none => rw [hadv] at h; dsimp only at h; exact absurd h (by simp)
        | some nxt =>
          rw [hadv] at h
          dsimp only at h
          by_cases hc : (field :: attempted).contains nxt = true
          · rw [if_pos hc] at h; exact absurd h (by simp)
          · rw [if_neg hc] at h
            exact ih nxt (field :: attempted) h
      · simp only [Bool.not_eq_true] at hm
        simp only [hm, Bool.false_eq_true, if_false, ite_false] at h
        exact absurd h (by simp)

/-- Characterisation of the incident one record contributes to a cycle:
either the previous cycle stored the same signature for its id and the three
update fields are carried forward, or the record stamps `confidence_updated_at`
with the fetch time and marks the cycle changed. -/
theorem buildCycleIncident_cases (opts : ServiceOptions) (fetchedAt : String)
    (prevIncidents : List (String × Incident)) (prevSignatures : List (String × String))
    (record : RawRecord) (inc : Incident) (sig : String) (chg : Bool)
    (hb : buildCycleIncident opts fetchedAt prevIncidents prevSignatures record =
      some (inc, sig, chg)) :
    (∃ prev, mapGet prevIncidents inc.incident_id = some prev ∧
      mapGet prevSignatures inc.incident_id = some sig ∧
      inc.updated_at = prev.updated_at ∧
      inc.confidence_updated_at = jsOr prev.confidence_updated_at (some fetchedAt) ∧
      inc.latest_update = prev.latest_update ∧ chg = false) ∨
    (inc.confidence_updated_at = some fetchedAt ∧ chg = true ∧
      (mapGet prevIncidents inc.incident_id = none ∨
        mapGet prevSignatures inc.incident_id ≠ some sig)) := by
  unfold buildCycleIncident at hb
  cases hn : normaliseRecord record opts.defaultState with
  | none => rw [hn] at hb; cases hb
  | some n0 =>
    rw [hn] at hb
    dsimp only at hb
    cases hprev : mapGet prevIncidents n0.incident_id with
    | some prev =>
      rw [hprev] at hb
      dsimp only at hb
      split at hb
      case isTrue hcond =>
        cases hb
        refine Or.inl ⟨prev, ?_, ?_, rfl, rfl, rfl, rfl⟩
        · simpa using hprev
        · simpa using hcond
      case isFalse hcond =>
        cases hb
        refine Or.inr ⟨rfl, rfl, Or.inr ?_⟩
        simpa using hcond
    | none =>
      rw [hprev] at hb
      dsimp only at hb
      cases hb
      refine Or.inr ⟨rfl, rfl, Or.inl ?_⟩
      simpa using hprev

/-- A lookup in the maps built by the record loop either is untouched (no
record of the payload carried that id) or returns the contribution of some
payload record with that id — both maps coming from the same record. -/
theorem processRecords_get (opts : ServiceOptions) (fetchedAt : String)
    (prevIncidents : List (String × Incident)) (prevSignatures : List (String × String))
    (records : List RawRecord) (acc : CycleMaps) (id : String) :
    (mapGet (processRecords opts fetchedAt prevIncidents prevSignatures records acc).incidents id =
        mapGet acc.incidents id ∧
      mapGet (processRecords opts fetchedAt prevIncidents prevSignatures records acc).signatures id =
        mapGet acc.signatures id) ∨
    (∃ record ∈ records, ∃ inc sig chg,
      buildCycleIncident opts fetchedAt prevIncidents prevSignatures record = some (inc, sig, chg) ∧
      inc.incident_id = id ∧
      mapGet (processRecords opts fetchedAt prevIncidents prevSignatures records acc).incidents id =
        some inc ∧
      mapGet (processRecords opts fetchedAt prevIncidents prevSignatures records acc).signatures id =
        some sig) := by
  induction records generalizing acc with
  | nil => exact Or.inl ⟨rfl, rfl⟩
  | cons record rest ih =>
    cases hb : buildCycleIncident opts fetchedAt prevIncidents prevSignatures record with
    | none =>
      have hstep : processRecords opts fetchedAt prevIncidents prevSignatures (record :: rest) acc =
          processRecords opts fetchedAt prevIncidents prevSignatures rest acc := by
        conv_lhs => rw [processRecords.eq_def]
        dsimp only
        rw [hb]
      rw [hstep]
      rcases ih acc with hl | ⟨r, hr, rest'⟩
      · exact Or.inl hl
      · exact Or.inr ⟨r, List.mem_cons_of_mem _ hr, rest'⟩
    | some trip =>
      obtain ⟨inc, sig, chg⟩ := trip
      have hstep : processRecords opts fetchedAt prevIncidents prevSignatures (record :: rest) acc =
          processRecords opts fetchedAt prevIncidents prevSignatures rest
            { incidents := mapSet acc.incidents inc.incident_id inc
              signatures := mapSet acc.signatures inc.incident_id sig
              changed := acc.changed || chg } := by
        conv_lhs => rw [processRecords.eq_def]
        dsimp only
        rw [hb]
      rw [hstep]
      rcases ih { incidents := mapSet acc.incidents inc.incident_id inc
                  signatures := mapSet acc.signatures inc.incident_id sig
                  changed := acc.changed || chg } with ⟨hl1, hl2⟩ | ⟨r, hr, rest'⟩
      · by_cases hid : inc.incident_id = id
        · refine Or.inr ⟨record, List.mem_cons_self _ _, inc, sig, chg, hb, hid, ?_, ?_⟩
          · rw [hl1]
            dsimp only
            rw [mapGet_mapSet]
            simp [hid]
          · rw [hl2]
            dsimp only
            rw [mapGet_mapSet]
            simp [hid]
        · refine Or.inl ⟨?_, ?_⟩
          · rw [hl1]
            dsimp only
            rw [mapGet_mapSet]
            simp [hid]
          · rw [hl2]
            dsimp only
            rw [mapGet_mapSet]
            simp [hid]
      · exact Or.inr ⟨r, List.mem_cons_of_mem _ hr, rest'⟩

/-- Every incident a cycle stores carries a truthy `confidence_updated_at`
(either carried forward or freshly stamped with the non-empty fetch time). -/
theorem buildCycleIncident_stamped (opts : ServiceOptions) (fetchedAt : String)
    (prevIncidents : List (String × Incident)) (prevSignatures : List (String × String))
    (record : RawRecord) (inc : Incident) (sig : String) (chg : Bool)
    (hf : fetchedAt ≠ "")
    (hb : buildCycleIncident opts fetchedAt prevIncidents prevSignatures record =
      some (inc, sig, chg)) :
    jsTruthy inc.confidence_updated_at = true := by
  have hft : jsTruthy (some fetchedAt) = true := by
    simp [jsTruthy, Bool.eq_false_iff, String.isEmpty_iff, hf]
  rcases buildCycleIncident_cases opts fetchedAt prevIncidents prevSignatures record inc sig chg hb
    with ⟨prev, _, _, _, hcua, _, _⟩ | ⟨hcua, _, _⟩
  · rw [hcua]
    exact jsTruthy_jsOr_right hft
  · rw [hcua]
    exact hft

/-- After a successful cycle with a non-empty fetch time, every stored
incident has a truthy `confidence_updated_at`. -/
theorem poll_stamped (env : String → HttpResponse) (opts : ServiceOptions) (fetchedAt : String)
    (st : ServiceState) (res : PollResult) (st' : ServiceState)
    (hf : fetchedAt ≠ "")
    (h : poll env opts fetchedAt st = (.ok res, st')) :
    ∀ id inc, mapGet st'.incidents id = some inc → jsTruthy inc.confidence_updated_at = true := by
  intro id inc hget
  unfold poll at h
  cases hloop : pollFetchLoop env POLL_FUEL st.primaryTimeField [] with
  | error e => rw [hloop] at h; cases h
  | ok pr =>
    obtain ⟨payload, fld⟩ := pr
    rw [hloop] at h
    cases h
    rcases processRecords_get opts fetchedAt st.incidents st.signatures payload ⟨[], [], false⟩ id
      with ⟨h1, _⟩ | ⟨r, _, inc', sig, chg, hb, hid, hgi, _⟩
    · rw [h1] at hget
      simp [mapGet] at hget
    · rw [hgi] at hget
      injection hget with hinc
      subst hinc
      exact buildCycleIncident_stamped opts fetchedAt st.incidents st.signatures r _ sig chg hf hb

/-! ## Claim theorems -/

/-- C4: for every raw record, derived severity and timeline, the confidence
score of `calculateConfidence` equals the reference computation worded by the
specification (base 55; +12/+8/+6 for violent/medical/property; +6 for a
non-empty timeline, +4 more for at least two and +3 more for at least three
entries; +8 for a present non-default disposition; +4 for a present
response-group field; +3 for a present clearance code; clamped to `[40, 95]`),
and the returned score always lies within `[40, 95]`. -/
theorem confidence_matches_reference_and_bounded (record : RawRecord) (severity : String)
    (timeline : List TimelineStep) :
    calculateConfidence record severity timeline = confidenceReference record severity timeline ∧
    40 ≤ calculateConfidence record severity timeline ∧
    calculateConfidence record severity timeline ≤ 95 := by
  refine ⟨?_, ?_, ?_⟩
  · unfold calculateConfidence confidenceReference
    exact confidenceClampEq _ _ _ _ _ _ _
  · unfold calculateConfidence
    exact (confidenceBounds _).1
  · unfold calculateConfidence
    exact (confidenceBounds _).2

/-- C5: `normaliseRecord` rejects a raw record (returns `none`) exactly when
the record lacks a usable identifier (neither `cad_event_number` nor
`general_offense_number` is present and non-empty) or its resolved latitude
or longitude string does not parse to a finite number. -/
theorem normaliseRecord_rejects_iff (record : RawRecord) (fallbackState : Option String) :
    normaliseRecord record fallbackState = none ↔
      (jsTruthy (jsOr record.cad_event_number record.general_offense_number) = false ∨
       parseFloatJs (resolvedLatString record) = none ∨
       parseFloatJs (resolvedLonString record) = none) := by
  unfold normaliseRecord
  by_cases hid : jsTruthy (jsOr record.cad_event_number record.general_offense_number) = false
  · simp [hid]
  · cases hlat : parseFloatJs (resolvedLatString record) <;>
      cases hlon : parseFloatJs (resolvedLonString record) <;>
      simp [hid, hlat, hlon]

/-- C10: a raw record with a usable identifier whose coordinate fields are all
absent or empty is not rejected: the `||` chains fall back to the string
`'0'`, so `normaliseRecord` produces an incident whose latitude and longitude
are zero. -/
theorem blank_coords_normalise_to_zero (record : RawRecord) (fallbackState : Option String)
    (hid : jsTruthy (jsOr record.cad_event_number record.general_offense_number) = true)
    (hblank : coordFieldsBlank record = true) :
    (normaliseRecord record fallbackState).isSome = true ∧
    (normaliseRecord record fallbackState).map (fun inc => inc.location.latitude) =
      some ⟨0, 0⟩ ∧
    (normaliseRecord record fallbackState).map (fun inc => inc.location.longitude) =
      some ⟨0, 0⟩ := by
  simp only [coordFieldsBlank, Bool.and_eq_true, Bool.not_eq_true'] at hblank
  obtain ⟨⟨⟨⟨⟨hla, hlb⟩, hlc⟩, hld⟩, hle⟩, hlf⟩ := hblank
  have hlat : resolvedLatString record = "0" := by
    unfold resolvedLatString
    rw [jsOr_of_falsy hla, jsOr_of_falsy hlb, jsOr_of_falsy hlc]
    rfl
  have hlon : resolvedLonString record = "0" := by
    unfold resolvedLonString
    rw [jsOr_of_falsy hld, jsOr_of_falsy hle, jsOr_of_falsy hlf]
    rfl
  have hzero : parseFloatJs "0" = some ⟨0, 0⟩ := by decide
  unfold normaliseRecord
  rw [hlat, hlon, hzero]
  simp [hid]

/-- C10 witness: the minimal fixture record has a usable identifier and blank
coordinates, and normalises to an incident at latitude and longitude zero. -/
theorem blank_coords_normalise_to_zero_witness :
    jsTruthy (jsOr wRecord.cad_event_number wRecord.general_offense_number) = true ∧
    coordFieldsBlank wRecord = true ∧
    ((normaliseRecord wRecord none).isSome = true ∧
     (normaliseRecord wRecord none).map (fun inc => inc.location.latitude) = some ⟨0, 0⟩ ∧
     (normaliseRecord wRecord none).map (fun inc => inc.location.longitude) = some ⟨0, 0⟩) :=
  ⟨by decide, by decide,
    blank_coords_normalise_to_zero wRecord none (by decide) (by decide)⟩

/-- C1: for every incident present in the store across two consecutive poll
cycles whose newly computed signature equals the signature stored for it in
the previous cycle (i.e. the stored signature is unchanged across the two
cycles), the fields `updated_at`, `confidence_updated_at` and `latest_update`
of the stored incident after the second cycle are identical to the previous
cycle's values.  The first cycle's fetch time is non-empty, as
`new Date().toISOString()` always is. -/
theorem unchanged_signature_stability
    (env1 env2 : String → HttpResponse) (opts : ServiceOptions) (f1 f2 : String)
    (st0 st1 st2 : ServiceState) (r1 r2 : PollResult) (id : String) (prev cur : Incident)
    (hf1 : f1 ≠ "")
    (h1 : poll env1 opts f1 st0 = (.ok r1, st1))
    (h2 : poll env2 opts f2 st1 = (.ok r2, st2))
    (hprev : mapGet st1.incidents id = some prev)
    (hcur : mapGet st2.incidents id = some cur)
    (hsig : mapGet st2.signatures id = mapGet st1.signatures id) :
    cur.updated_at = prev.updated_at ∧
    cur.confidence_updated_at = prev.confidence_updated_at ∧
    cur.latest_update = prev.latest_update := by
  have hstamped := poll_stamped env1 opts f1 st0 r1 st1 hf1 h1 id prev hprev
  unfold poll at h2
  cases hloop : pollFetchLoop env2 POLL_FUEL st1.primaryTimeField [] with
  | error e => rw [hloop] at h2; cases h2
  | ok pr =>
    obtain ⟨payload, fld⟩ := pr
    rw [hloop] at h2
    cases h2
    rcases processRecords_get opts f2 st1.incidents st1.signatures payload ⟨[], [], false⟩ id
      with ⟨hno, _⟩ | ⟨r, _, inc', sig, chg, hb, hid, hgi, hgs⟩
    · rw [hno] at hcur
      simp [mapGet] at hcur
    · rw [hgi] at hcur
      injection hcur with hinc
      subst hinc
      rw [hgs] at hsig
      rcases buildCycleIncident_cases opts f2 st1.incidents st1.signatures r _ sig chg hb with
        ⟨prev', hgp, hgs', hup, hcua, hlu, _⟩ | ⟨_, _, hbad⟩
      · rw [hid] at hgp
        rw [hprev] at hgp
        injection hgp with hpe
        subst hpe
        refine ⟨hup, ?_, hlu⟩
        rw [hcua, jsOr_of_truthy hstamped]
      · rw [hid] at hbad
        rcases hbad with hnone | hne
        · rw [hprev] at hnone
          cases hnone
        · exact absurd hsig.symm hne

/-- C1 witness: two successful cycles of the fixture upstream; the fixture
incident keeps its signature, and its three update fields after the second
cycle equal the first cycle's values. -/
theorem unchanged_signature_stability_witness :
    mapGet wSt2.signatures "E1" = mapGet wSt1.signatures "E1" ∧
    (wCur.updated_at = wPrev.updated_at ∧
     wCur.confidence_updated_at = wPrev.confidence_updated_at ∧
     wCur.latest_update = wPrev.latest_update) :=
  ⟨by decide,
    unchanged_signature_stability wEnvOk wEnvOk wOpts "T1" "T2" wSt0 wSt1 wSt2 wR1 wR2 "E1"
      wPrev wCur (by decide) (by decide) (by decide) (by decide) (by decide) (by decide)⟩

/-- C2: the time-field fallback of `poll`.  (1) On a fetch error marked as a
missing or type-mismatched column for the current candidate field, with an
unattempted next field in the fallback list, the walk marks the field failed
and retries with the next field.  (2) When there is no next field, or the
next field was already attempted, the walk throws the "unsupported primary
time field" error.  (3) On a failing cycle `this.primaryTimeField` is
untouched, and it only ever holds a field for which a fetch succeeded —
the assignment happens only on confirmed success, never speculatively. -/
theorem time_field_fallback :
    (∀ (env : String → HttpResponse) (field : String) (attempted : List String) (fuel : Nat)
       (e : FetchError) (nextField : String),
      fetchIncidents env field = .error e → e.missingColumn = true →
      advanceTimeField field = some nextField →
      (field :: attempted).contains nextField = false →
      pollFetchLoop env (fuel + 1) field attempted =
        pollFetchLoop env fuel nextField (field :: attempted)) ∧
    (∀ (env : String → HttpResponse) (field : String) (attempted : List String) (fuel : Nat)
       (e : FetchError),
      fetchIncidents env field = .error e → e.missingColumn = true →
      (advanceTimeField field = none ∨
        ∃ nextField, advanceTimeField field = some nextField ∧
          (field :: attempted).contains nextField = true) →
      pollFetchLoop env (fuel + 1) field attempted = .error (.unsupportedField field)) ∧
    (∀ (env : String → HttpResponse) (opts : ServiceOptions) (fetchedAt : String)
       (st : ServiceState) (res : Except PollErr PollResult) (st' : ServiceState),
      poll env opts fetchedAt st = (res, st') →
      ((∃ e, res = .error e) → st'.primaryTimeField = st.primaryTimeField) ∧
      (st'.primaryTimeField = st.primaryTimeField ∨
        ∃ payload, fetchIncidents env st'.primaryTimeField = .ok payload)) := by
  refine ⟨?_, ?_, ?_⟩
  · intro env field attempted fuel e nextField hf hm hadv hc
    conv_lhs => rw [pollFetchLoop.eq_def]
    dsimp only
    rw [hf]
    simp only [hm, if_true, ite_true, hadv]
    rw [if_neg (by simpa using hc)]
  · intro env field attempted fuel e hf hm hcase
    unfold pollFetchLoop
    rw [hf]
    simp only [hm, if_true, ite_true]
    rcases hcase with hnone | ⟨nextField, hadv, hc⟩
    · rw [hnone]
    · rw [hadv]
      dsimp only
      rw [if_pos hc]
  · intro env opts fetchedAt st res st' h
    unfold poll at h
    cases hloop : pollFetchLoop env POLL_FUEL st.primaryTimeField [] with
    | error e =>
      rw [hloop] at h
      cases h
      exact ⟨fun _ => rfl, Or.inl rfl⟩
    | ok pr =>
      obtain ⟨payload, fld⟩ := pr
      rw [hloop] at h
      cases h
      constructor
      · intro he
        obtain ⟨e, he⟩ := he
        simp at he
      · exact Or.inr ⟨payload,
          pollFetchLoop_ok_fetch env POLL_FUEL st.primaryTimeField [] payload fld hloop⟩

/-- C2 witness: against an upstream whose 400 body names every candidate
column as missing, the walk starting at the last fallback field (which has no
successor) throws the unsupported-field error. -/
theorem time_field_fallback_witness :
    fetchIncidents wEnv400 "datetime" =
      .error ⟨"Failed to fetch incidents: 400 No such column datetime", true⟩ ∧
    pollFetchLoop wEnv400 1 "datetime" [] = .error (.unsupportedField "datetime") :=
  ⟨by decide,
    time_field_fallback.2.1 wEnv400 "datetime" [] 0
      ⟨"Failed to fetch incidents: 400 No such column datetime", true⟩
      (by decide) (by decide) (Or.inl (by decide))⟩

/-- C3: a poll cycle that throws leaves the incident map and the signature
map exactly as they were, and a successful cycle replaces both maps together
with the maps built from the fetched payload: a cycle either fully replaces
both maps or modifies neither. -/
theorem poll_failure_leaves_store (env : String → HttpResponse) (opts : ServiceOptions)
    (fetchedAt : String) (st : ServiceState) :
    (∀ e st', poll env opts fetchedAt st = (.error e, st') →
      st'.incidents = st.incidents ∧ st'.signatures = st.signatures) ∧
    (∀ res st', poll env opts fetchedAt st = (.ok res, st') →
      ∃ payload fld,
        pollFetchLoop env POLL_FUEL st.primaryTimeField [] = .ok (payload, fld) ∧
        st'.incidents =
          (processRecords opts fetchedAt st.incidents st.signatures payload ⟨[], [], false⟩).incidents ∧
        st'.signatures =
          (processRecords opts fetchedAt st.incidents st.signatures payload ⟨[], [], false⟩).signatures) := by
  constructor
  · intro e st' h
    unfold poll at h
    cases hloop : pollFetchLoop env POLL_FUEL st.primaryTimeField [] with
    | error e' =>
      rw [hloop] at h
      cases h
      exact ⟨rfl, rfl⟩
    | ok pr =>
      obtain ⟨payload, fld⟩ := pr
      rw [hloop] at h
      cases h
  · intro res st' h
    unfold poll at h
    cases hloop : pollFetchLoop env POLL_FUEL st.primaryTimeField [] with
    | error e' =>
      rw [hloop] at h
      cases h
    | ok pr =>
      obtain ⟨payload, fld⟩ := pr
      rw [hloop] at h
      cases h
      exact ⟨payload, fld, rfl, rfl, rfl⟩

/-- C3 witness: an HTTP 500 cycle against a populated store leaves both maps
untouched. -/
theorem poll_failure_leaves_store_witness :
    (poll wEnv500 wOpts "T3" wSt1).2.incidents = wSt1.incidents ∧
    (poll wEnv500 wOpts "T3" wSt1).2.signatures = wSt1.signatures :=
  (poll_failure_leaves_store wEnv500 wOpts "T3" wSt1).1
    (.fetchFailed "Failed to fetch incidents: 500 boom" false) (poll wEnv500 wOpts "T3" wSt1).2
    (by decide)

/-- C8: a successful cycle whose stored incident count differs from the
previous cycle's count is reported as changed — regardless of any signature
comparison — and emits the `update` notification carrying the new snapshot. -/
theorem count_change_reports_changed (env : String → HttpResponse) (opts : ServiceOptions)
    (fetchedAt : String) (st : ServiceState) (res : PollResult) (st' : ServiceState)
    (h : poll env opts fetchedAt st = (.ok res, st'))
    (hsize : st.incidents.length ≠ st'.incidents.length) :
    res.changed = true ∧ res.emitted = some (getSnapshot st') := by
  unfold poll at h
  cases hloop : pollFetchLoop env POLL_FUEL st.primaryTimeField [] with
  | error e =>
    rw [hloop] at h
    cases h
  | ok pr =>
    obtain ⟨payload, fld⟩ := pr
    rw [hloop] at h
    cases h
    have hdec : decide (st.incidents.length ≠
        (processRecords opts fetchedAt st.incidents st.signatures payload
          ⟨[], [], false⟩).incidents.length) = true := by
      simpa using hsize
    constructor
    · simp [hdec]
    · simp [hdec]

/-- C8 witness: the first fixture cycle grows the store from zero to one
incident, so the cycle is changed and emits the new snapshot. -/
theorem count_change_reports_changed_witness :
    wSt0.incidents.length ≠ wSt1.incidents.length ∧
    wR1.changed = true ∧ wR1.emitted = some (getSnapshot wSt1) :=
  ⟨by decide,
    count_change_reports_changed wEnvOk wOpts "T1" wSt0 wR1 wSt1 (by decide) (by decide)⟩

/-- C9: the scheduling of `IncidentService.start` does not guard against
overlapping poll cycles.  Right after `start()` the initial poll is in flight
(`pollsInFlight = 1`) and the interval is installed; a single wall-clock
interval firing before that poll settles starts a second cycle
unconditionally, leaving two poll cycles simultaneously in progress — the
interval callback has no poll-in-progress check, contradicting the
specification's requirement that a new cycle never begin while a previous
one's asynchronous work is still running. -/
theorem no_overlap_guard :
    startService.pollsInFlight = 1 ∧ startService.intervalSet = true ∧
    (schedStep startService .timerFire).pollsInFlight = 2 := by decide

/-- C6 counterexample: in `overlapGapTrace` the two calls to
`_getCachedOrFetch` for the same key overlap in time (after three events B
has performed its backend read — its call is underway — while A's call is not
yet finished) and the backend never holds an entry for the key at any point
of the run, yet both calls complete and the fetch function is invoked twice,
not once: A's call settles and removes the in-flight marker before B reaches
its in-flight check, so B starts a second fetch.  This refutes the claim as
stated, which promises exactly one invocation for any calls that overlap in
time while no cache entry exists. -/
theorem coalescing_overlap_counterexample :
    ((List.range (overlapGapTrace.length + 1)).map
        (fun k => (coRun (overlapGapTrace.take k)).cacheVal)).all (fun c => c == none) = true ∧
    (coRun (overlapGapTrace.take 3)).taskB = .checkPending none ∧
    (coRun (overlapGapTrace.take 3)).taskA.isFinished = false ∧
    (coRun overlapGapTrace).taskA.isFinished = true ∧
    (coRun overlapGapTrace).taskB.isFinished = true ∧
    (coRun overlapGapTrace).fetchCount = 2 := by decide

/-- The invariant `coInvB` is preserved by every step of the coalescing
machine. -/
theorem coInvB_step (s : CoState) (e : CoEvent) (h : coInvB s = true) :
    coInvB (coStep s e) = true := by
  cases e with
  | read t =>
    unfold coStep readStep
    cases t
    · cases htask : s.taskB <;>
        simp_all [CoState.task, CoState.setTask, coInvB, TaskPhase.preFetch]
    · cases htask : s.taskA <;>
        simp_all [CoState.task, CoState.setTask, coInvB, TaskPhase.preFetch]
  | proceed t =>
    unfold coStep proceedStep
    cases t
    · cases htask : s.taskB with
      | checkPending cached =>
        cases cached with
        | some v =>
          simp_all [CoState.task, CoState.setTask, coInvB, TaskPhase.preFetch]
        | none =>
          cases hp : s.pending with
          | some pid =>
            simp_all [CoState.task, CoState.setTask, coInvB, TaskPhase.preFetch]
          | none =>
            simp_all [CoState.task, CoState.setTask, coInvB, TaskPhase.preFetch]
      | _ =>
        simp_all [CoState.task, CoState.setTask, coInvB, TaskPhase.preFetch]
    · cases htask : s.taskA with
      | checkPending cached =>
        cases cached with
        | some v =>
          simp_all [CoState.task, CoState.setTask, coInvB, TaskPhase.preFetch]
        | none =>
          cases hp : s.pending with
          | some pid =>
            simp_all [CoState.task, CoState.setTask, coInvB, TaskPhase.preFetch]
          | none =>
            simp_all [CoState.task, CoState.setTask, coInvB, TaskPhase.preFetch]
            exact Nat.add_comm _ _
      | _ =>
        simp_all [CoState.task, CoState.setTask, coInvB, TaskPhase.preFetch]
  | settle pid out setOk =>
    show coInvB (settleStep s pid out setOk) = true
    unfold settleStep
    split
    · cases out with
      | success v =>
        split_ifs <;> simpa [coInvB, TaskPhase.preFetch] using h
      | failure e =>
        simpa [coInvB, TaskPhase.preFetch] using h
    · exact h
  | resume t =>
    unfold coStep resumeStep
    cases t
    · cases htask : s.taskB <;>
        simp_all [CoState.task, CoState.setTask, coInvB, TaskPhase.preFetch] <;>
        split <;> simp_all
    · cases htask : s.taskA <;>
        simp_all [CoState.task, CoState.setTask, coInvB, TaskPhase.preFetch] <;>
        split <;> simp_all

theorem coInvB_foldl (events : List CoEvent) (s : CoState) (h : coInvB s = true) :
    coInvB (events.foldl coStep s) = true := by
  induction events generalizing s with
  | nil => exact h
  | cons e rest ih => exact ih (coStep s e) (coInvB_step s e h)

theorem coInvB_run (events : List CoEvent) : coInvB (coRun events) = true :=
  coInvB_foldl events coInit (by decide)

/-- C6 (amended): the coalescing that `_getCachedOrFetch` actually provides.
(1) A caller whose post-read segment runs while the in-flight marker for the
key is present never invokes the fetch function, and (2) if it saw a cache
miss it attaches to the shared in-flight promise.  (3) When the owner and an
attached waiter both await the same settled promise, both calls finish with
that promise's result — the shared outcome, on success and on failure alike —
and the in-flight marker is gone.  (4) The owner's resume removes the
in-flight marker once the fetch settles, whether it succeeded or failed.
(5)/(6) In every interleaving in which one caller attached to the shared
promise, the fetch function is invoked at most once over the whole run, and
exactly once if the other caller started a fetch. -/
theorem coalescing_amended :
    (∀ (s : CoState) (t : Bool) (pid : Nat), s.pending = some pid →
      (coStep s (.proceed t)).fetchCount = s.fetchCount) ∧
    (∀ (s : CoState) (pid : Nat) (t : Bool), s.pending = some pid →
      s.task t = .checkPending none →
      (coStep s (.proceed t)).task t = .awaitShared pid) ∧
    (∀ (s : CoState) (pid : Nat) (out : FetchOutcome),
      promiseOutcome s.promises pid = some (some out) →
      s.taskA = .awaitOwn pid → s.taskB = .awaitShared pid →
      (coStep (coStep s (.resume true)) (.resume false)).taskA = .finished (outcomeResult out) ∧
      (coStep (coStep s (.resume true)) (.resume false)).taskB = .finished (outcomeResult out) ∧
      (coStep s (.resume true)).pending = none) ∧
    (∀ (s : CoState) (t : Bool) (pid : Nat) (out : FetchOutcome),
      s.task t = .awaitOwn pid → promiseOutcome s.promises pid = some (some out) →
      (coStep s (.resume t)).pending = none) ∧
    (∀ (events : List CoEvent),
      (coRun events).bAttached = true →
      (coRun events).fetchCount ≤ 1 ∧
      ((coRun events).aStarted = true → (coRun events).fetchCount = 1)) ∧
    (∀ (events : List CoEvent),
      (coRun events).aAttached = true →
      (coRun events).fetchCount ≤ 1 ∧
      ((coRun events).bStarted = true → (coRun events).fetchCount = 1)) := by
  refine ⟨?_, ?_, ?_, ?_, ?_, ?_⟩
  · intro s t pid hp
    unfold coStep proceedStep
    cases t
    · cases htask : s.taskB with
      | checkPending cached =>
        cases cached <;> simp_all [CoState.task, CoState.setTask]
      | _ => simp_all [CoState.task, CoState.setTask]
    · cases htask : s.taskA with
      | checkPending cached =>
        cases cached <;> simp_all [CoState.task, CoState.setTask]
      | _ => simp_all [CoState.task, CoState.setTask]
  · intro s pid t hp htask
    unfold coStep proceedStep
    cases t <;> simp_all [CoState.task, CoState.setTask]
  · intro s pid out hpo hA hB
    unfold coStep resumeStep
    simp_all [CoState.task, CoState.setTask]
  · intro s t pid out htask hpo
    unfold coStep resumeStep
    cases t <;> simp_all [CoState.task, CoState.setTask]
  · intro events hatt
    have hinv := coInvB_run events
    simp only [coInvB, Bool.and_eq_true, beq_iff_eq, Bool.or_eq_true, Bool.not_eq_true'] at hinv
    obtain ⟨⟨⟨⟨hcnt, ha⟩, hb⟩, hpa⟩, hpb⟩ := hinv
    rcases hb with hb | hb
    · rw [hatt] at hb; cases hb
    · constructor
      · rw [hcnt, hb]
        cases (coRun events).aStarted <;> simp
      · intro has
        rw [hcnt, hb, has]
        simp
  · intro events hatt
    have hinv := coInvB_run events
    simp only [coInvB, Bool.and_eq_true, beq_iff_eq, Bool.or_eq_true, Bool.not_eq_true'] at hinv
    obtain ⟨⟨⟨⟨hcnt, ha⟩, hb⟩, hpa⟩, hpb⟩ := hinv
    rcases ha with ha | ha
    · rw [hatt] at ha; cases ha
    · constructor
      · rw [hcnt, ha]
        cases (coRun events).bStarted <;> simp
      · intro hbs
        rw [hcnt, ha, hbs]
        simp

/-- C6 witness: in `coalescedTrace` the second caller attaches while the
first caller's fetch is in flight; the fetch runs exactly once, both callers
finish with the shared result, and the in-flight marker is gone. -/
theorem coalescing_amended_witness :
    (coRun coalescedTrace).bAttached = true ∧
    (coRun coalescedTrace).aStarted = true ∧
    (coRun coalescedTrace).fetchCount = 1 ∧
    (coRun coalescedTrace).taskA = .finished (.ok 7) ∧
    (coRun coalescedTrace).taskB = .finished (.ok 7) ∧
    (coRun coalescedTrace).pending = none :=
  ⟨by decide, by decide,
    (coalescing_amended.2.2.2.2.1 coalescedTrace (by decide)).2 (by decide),
    by decide, by decide, by decide⟩

/-- C7 counterexample: a rejected backend read (`await cache.get` throwing)
propagates out of `_getCachedOrFetch` — the call returns the backend's error
and the fetch function is never invoked, instead of proceeding against the
live source and returning its result as the claim states.  (The
`cache.get` call in the source is not wrapped in any try/catch.) -/
theorem cache_read_failure_propagates :
    getCachedOrFetchOnce false (.error "backend down") (.ok 7) (.ok ()) =
      (.error "backend down", false) := by decide

/-- C7 (amended): the cache-backend tolerance `_getCachedOrFetch` actually
provides.  (1) On a backend miss the call proceeds against the live fetch
function and returns its result, regardless of whether the best-effort
`cache.set` succeeds or fails (a store failure is logged only).  (2) A cached
entry that fails to revive is logged and treated as a miss: the call proceeds
against the fetch function.  (3) But a backend failure on the read path is
not tolerated: the rejected read propagates to the caller and the fetch
function is not invoked. -/
theorem cache_backend_tolerance :
    (∀ (fetchResult : Except String Nat) (cacheSet : Except String Unit),
      getCachedOrFetchOnce false (.ok none) fetchResult cacheSet = (fetchResult, true)) ∧
    (∀ (cached : String) (fetchResult : Except String Nat) (cacheSet : Except String Unit),
      parseCachedNat cached = none →
      getCachedOrFetchOnce false (.ok (some cached)) fetchResult cacheSet = (fetchResult, true)) ∧
    (∀ (e : String) (fetchResult : Except String Nat) (cacheSet : Except String Unit),
      getCachedOrFetchOnce false (.error e) fetchResult cacheSet = (.error e, false)) := by
  refine ⟨?_, ?_, ?_⟩
  · intro fetchResult cacheSet
    cases fetchResult <;> cases cacheSet <;> rfl
  · intro cached fetchResult cacheSet hparse
    cases fetchResult <;> cases cacheSet <;> simp [getCachedOrFetchOnce, hparse]
  · intro e fetchResult cacheSet
    rfl

/-- C7 witness: a failing best-effort store does not fail the call, and an
unparseable cached entry is treated as a miss. -/
theorem cache_backend_tolerance_witness :
    getCachedOrFetchOnce false (.ok none) (.ok 5) (.error "set fail") = (.ok 5, true) ∧
    (parseCachedNat "notjson" = none ∧
      getCachedOrFetchOnce false (.ok (some "notjson")) (.ok 5) (.ok ()) = (.ok 5, true)) :=
  ⟨cache_backend_tolerance.1 (.ok 5) (.error "set fail"),
    by decide, cache_backend_tolerance.2.1 "notjson" (.ok 5) (.ok ()) (by decide)⟩

end CrimeTrend
